import Mathlib

/- Verification development for the presentation-video pipeline.

   The model below is a shallow embedding of the two files that carry the
   pipeline logic:

   * video_processor.py — path planning (f-string naming), the ffmpeg argument
     vectors built by cut_video / slide_to_video / resize_video /
     combine_videos / concat_videos, and the orchestration in
     process_video_with_presentation (count validation, rasterization, the
     per-segment loop with its cleanup accumulator, concatenation, and the
     unconditional finally-block cleanup).
   * celery_worker.py — create_video_task's output naming, its except-branch
     cleanup (sources plus output path) and finally-branch cleanup (sources
     only), and cleanup_files.

   External effects are made explicit:
   * the filesystem is a list of existing paths;
   * each external ffmpeg invocation is an Op; an oracle failOp : Op → Bool
     says which invocations exit non-zero (subprocess.run(check=True) raises);
   * an oracle removeFails : String → Bool says which os.remove calls raise
     OSError (the source swallows and logs those);
   * JSON parsing / PDF reading are represented by their results: the parsed
     segment list (data["slides"]) and the page count (len(reader.pages)).
     Timestamps are modelled as integers.
-/

namespace PresGen

/-- One entry of data["slides"]: {title, start, end}. -/
structure Segment where
  title : String
  start : Int
  «end» : Int
deriving DecidableEq

/-- Python f-string {:02d} formatting for a natural number: zero-pad to
    width two. -/
def pad2 (n : Nat) : String :=
  if n < 10 then "0" ++ toString n else toString n

def slashStr : String := "/"

/-- String prefix test, structurally on the character lists. -/
def strStartsWith (s pre : String) : Bool := pre.data.isPrefixOf s.data

/-- String suffix test, structurally on the character lists. -/
def strEndsWith (s post : String) : Bool :=
  post.data.reverse.isPrefixOf s.data.reverse

/-- os.path.join for the two-argument uses in the source. -/
def pathJoin (a b : String) : String :=
  if strStartsWith b slashStr then b
  else if a == "" || strEndsWith a slashStr then a ++ b
  else a ++ slashStr ++ b

/-- os.path.dirname (posixpath): everything up to the last slash, with
    trailing slashes stripped unless the head is all slashes. -/
def dirname (p : String) : String :=
  let head := (p.data.reverse.dropWhile (fun c => c != '/')).reverse
  if head.isEmpty then ""
  else if head.all (fun c => c == '/') then String.mk head
  else String.mk (head.reverse.dropWhile (fun c => c == '/')).reverse

/-- convert_pdf_to_images: image_path = os.path.join(output_folder,
    f'slide_{i+1:02d}.png') — 1-indexed, zero-padded page naming
    (i is the 0-based enumeration index). -/
def slideImagePath (output_folder : String) (i : Nat) : String :=
  pathJoin output_folder ( "slide_" ++ pad2 (i + 1) ++ ".png")

/-- The ordered image-path list returned by convert_pdf_to_images for a
    document with pageCount pages. -/
def convert_pdf_to_images (output_folder : String) (pageCount : Nat) : List String :=
  (List.range pageCount).map (fun i => slideImagePath output_folder i)

/-- speaker_cut = os.path.join(temp_folder, f'speaker_{i:02d}.mp4'). -/
def speakerCutPath (temp_folder : String) (i : Nat) : String :=
  pathJoin temp_folder ( "speaker_" ++ pad2 i ++ ".mp4")

/-- slide_vid = os.path.join(temp_folder, f'slide_{i:02d}.mp4'). -/
def slideVidPath (temp_folder : String) (i : Nat) : String :=
  pathJoin temp_folder ( "slide_" ++ pad2 i ++ ".mp4")

/-- speaker_resized = os.path.join(temp_folder, f'speaker_{i:02d}_resized.mp4'). -/
def speakerResizedPath (temp_folder : String) (i : Nat) : String :=
  pathJoin temp_folder ( "speaker_" ++ pad2 i ++ "_resized.mp4")

/-- combined = os.path.join(temp_folder, f'combined_{i:02d}.mp4'). -/
def combinedPath (temp_folder : String) (i : Nat) : String :=
  pathJoin temp_folder ( "combined_" ++ pad2 i ++ ".mp4")

/-- The fixed relative path concat_videos writes its list file to
    (open('inputs.txt', 'w')): resolved against the process's current
    working directory, not against temp_folder. -/
def manifestPath : String := "inputs.txt"

/-- One external ffmpeg invocation of the pipeline. -/
inductive Op where
  | cutVideo (input : String) (start «end» : Int) (output : String)
  | slideToVideo (image : String) (duration : Int) (output : String)
  | resizeVideo (input output : String)
  | combineVideos (slide speaker output : String)
  | concatVideos (videos : List String) (output : String)
deriving DecidableEq

/-- cut_video's argument vector (default codecs libx264 / aac, as the
    pipeline calls it). -/
def cut_video_cmd (input_video_path : String) (start «end» : Int)
    (output_video_path : String) : List String :=
  [ "ffmpeg", "-ss", toString start, "-to", toString «end», "-i", input_video_path,
    "-hide_banner", "-c:v", "libx264", "-c:a", "aac", "-y", output_video_path]

/-- slide_to_video's argument vector. -/
def slide_to_video_cmd (slide_img_path : String) (duration : Int)
    (output_video_path : String) : List String :=
  [ "ffmpeg", "-loop", "1", "-i", slide_img_path, "-hide_banner",
    "-t", toString duration, "-vf", "scale=1080:1080", "-c:v", "libx264",
    "-y", output_video_path]

/-- resize_video's argument vector. -/
def resize_video_cmd (input_video_path output_video_path : String) : List String :=
  [ "ffmpeg", "-i", input_video_path, "-hide_banner", "-vf", "scale=840:1080",
    "-c:v", "libx264", "-y", output_video_path]

/-- combine_videos's argument vector: slide input first, speaker input
    second, hstack, video from the filter graph, audio (optionally) from
    input 1 — the speaker clip. -/
def combine_videos_cmd (slide_video_path speaker_video_path output_video_path : String) :
    List String :=
  [ "ffmpeg", "-i", slide_video_path, "-i", speaker_video_path, "-hide_banner",
    "-filter_complex", "[0:v][1:v]hstack=inputs=2[v]", "-map", "[v]",
    "-map", "1:a?", "-c:v", "libx264", "-c:a", "aac", "-y", output_video_path]

/-- concat_videos's argument vector: stream copy from the inputs.txt list. -/
def concat_videos_cmd (output_video_path : String) : List String :=
  [ "ffmpeg", "-f", "concat", "-safe", "0", "-i", manifestPath, "-hide_banner",
    "-c", "copy", "-y", output_video_path]

/-- The argument vector executed for each Op. -/
def opCmd : Op → List String
  | .cutVideo input a b out => cut_video_cmd input a b out
  | .slideToVideo img d out => slide_to_video_cmd img d out
  | .resizeVideo input out => resize_video_cmd input out
  | .combineVideos a b out => combine_videos_cmd a b out
  | .concatVideos _ out => concat_videos_cmd out

/-- The output file an Op produces. -/
def opOutput : Op → String
  | .cutVideo _ _ _ out => out
  | .slideToVideo _ _ out => out
  | .resizeVideo _ out => out
  | .combineVideos _ _ out => out
  | .concatVideos _ out => out

/-- Whether the loop body appends the Op's output to video_fragments
    (only the combine step does). -/
def opAddsFrag : Op → Bool
  | .combineVideos _ _ _ => true
  | _ => false

/-- The text concat_videos writes to inputs.txt: one line per video,
    f"file '{v}'\n" (the path wrapped in single quotes). -/
def manifestContent (video_list : List String) : String :=
  String.join (video_list.map (fun v => "file \x27" ++ v ++ "\x27\n"))

/-- The four external operations the loop body issues for segment i, in
    program order, with the arguments process_video_with_presentation
    passes (lines 168–193 of video_processor.py). -/
def plannedSegOps (video_path temp_folder : String) (i : Nat) (s : Segment) : List Op :=
  [ Op.cutVideo video_path s.start s.«end» (speakerCutPath temp_folder i),
    Op.slideToVideo (slideImagePath temp_folder i) (s.«end» - s.start)
      (slideVidPath temp_folder i),
    Op.resizeVideo (speakerCutPath temp_folder i) (speakerResizedPath temp_folder i),
    Op.combineVideos (slideVidPath temp_folder i) (speakerResizedPath temp_folder i)
      (combinedPath temp_folder i) ]

/-- The loop's operations from enumeration index i on. -/
def plannedOpsAux (video_path temp_folder : String) : Nat → List Segment → List Op
  | _, [] => []
  | i, s :: rest =>
      plannedSegOps video_path temp_folder i s ++
        plannedOpsAux video_path temp_folder (i + 1) rest

/-- All operations the segment loop issues, in program order. -/
def plannedOps (video_path temp_folder : String) (segs : List Segment) : List Op :=
  plannedOpsAux video_path temp_folder 0 segs

/-- The composed-fragment paths in segment order. -/
def plannedFrags (temp_folder : String) (n : Nat) : List String :=
  (List.range n).map (fun i => combinedPath temp_folder i)

/-- Every path the finally-block can ever hold in cycle_temp_files (plus
    the manifest): the rasterized images, the loop outputs, inputs.txt. -/
def plannedCleanupNames (video_path temp_folder : String) (segs : List Segment) :
    List String :=
  convert_pdf_to_images temp_folder segs.length ++
    (plannedOps video_path temp_folder segs).map opOutput ++ [manifestPath]

/-- The loop state of process_video_with_presentation:
    fs — the files existing on disk;
    tmp — cycle_temp_files;
    frags — video_fragments;
    ops — the external invocations issued so far, in order. -/
structure LoopState where
  fs : List String
  tmp : List String
  frags : List String
  ops : List Op
deriving DecidableEq

/-- Effect of one successful external operation: its output file exists,
    its path is appended to cycle_temp_files (and, for the combine step,
    to video_fragments) before the next operation starts. -/
def applyOp (op : Op) (st : LoopState) : LoopState :=
  { fs := opOutput op :: st.fs,
    tmp := st.tmp ++ [opOutput op],
    frags := if opAddsFrag op then st.frags ++ [opOutput op] else st.frags,
    ops := st.ops ++ [op] }

def applyOps (ops : List Op) (st : LoopState) : LoopState :=
  ops.foldl (fun s o => applyOp o s) st

/-- Run the planned operations in order; the first failing one (per the
    failOp oracle) aborts the rest, exactly as the raised
    CalledProcessError aborts the Python loop. Returns the state reached
    and the failing operation, if any. -/
def runOps (failOp : Op → Bool) : List Op → LoopState → LoopState × Option Op
  | [], st => (st, none)
  | op :: rest, st =>
      if failOp op then ({ st with ops := st.ops ++ [op] }, some op)
      else runOps failOp rest (applyOp op st)

/-- The exceptions process_video_with_presentation can raise:
    the ValueError carrying both counts, or a failed external invocation
    (CalledProcessError identifying its command). -/
inductive PipeError where
  | countMismatch (jsonCount pdfCount : Nat)
  | transcode (op : Op)
deriving DecidableEq

/-- os.remove guarded by os.path.exists, with OSError swallowed: the file
    disappears iff it existed and the remove succeeded. -/
def removeOne (removeFails : String → Bool) (fs : List String) (p : String) :
    List String :=
  if p ∈ fs ∧ removeFails p = false then fs.filter (fun q => q != p) else fs

/-- cleanup_files (celery_worker.py) and the finally-block loop of
    process_video_with_presentation: best-effort deletion of each path in
    order, errors swallowed. -/
def cleanup_files (removeFails : String → Bool) (fs : List String)
    (paths : List String) : List String :=
  paths.foldl (removeOne removeFails) fs

/-- cycle_temp_files as the finally block sees it: the accumulated list,
    plus inputs.txt appended when that file exists. -/
def trackedWithManifest (tmp : List String) (fs : List String) : List String :=
  tmp ++ (if manifestPath ∈ fs then [manifestPath] else [])

/-- Everything process_video_with_presentation did, before the finally
    block's deletions are applied. -/
structure CoreResult where
  error : Option PipeError
  ops : List Op
  madeOutputFolder : Bool
  rasterized : Bool
  tracked : List String
  manifest : Option (List String)
  frags : List String
  fsPre : List String
deriving DecidableEq

/-- process_video_with_presentation up to (but not including) the finally
    block. Inputs: the parsed data["slides"] list, len(reader.pages), the
    narration path, the output path, and the initial filesystem. -/
def processCore (failOp : Op → Bool) (slides : List Segment) (pdfPages : Nat)
    (video_path output_path : String) (fs0 : List String) : CoreResult :=
  if slides.length = pdfPages then
    let temp_folder := dirname output_path
    let st0 : LoopState :=
      { fs := convert_pdf_to_images temp_folder pdfPages ++ fs0,
        tmp := convert_pdf_to_images temp_folder pdfPages,
        frags := [], ops := [] }
    match runOps failOp (plannedOps video_path temp_folder slides) st0 with
    | (st, some op) =>
        { error := some (.transcode op), ops := st.ops,
          madeOutputFolder := true, rasterized := true,
          tracked := trackedWithManifest st.tmp st.fs,
          manifest := none, frags := st.frags, fsPre := st.fs }
    | (st, none) =>
        let cop := Op.concatVideos st.frags output_path
        let fs1 := manifestPath :: st.fs
        if failOp cop then
          { error := some (.transcode cop), ops := st.ops ++ [cop],
            madeOutputFolder := true, rasterized := true,
            tracked := trackedWithManifest st.tmp fs1,
            manifest := some st.frags, frags := st.frags, fsPre := fs1 }
        else
          { error := none, ops := st.ops ++ [cop],
            madeOutputFolder := true, rasterized := true,
            tracked := trackedWithManifest st.tmp (output_path :: fs1),
            manifest := some st.frags, frags := st.frags,
            fsPre := output_path :: fs1 }
  else
    { error := some (.countMismatch slides.length pdfPages), ops := [],
      madeOutputFolder := false, rasterized := false, tracked := [],
      manifest := none, frags := [], fsPre := fs0 }

structure RunResult extends CoreResult where
  fsFinal : List String
deriving DecidableEq

/-- process_video_with_presentation including its finally block: the
    tracked paths (cycle_temp_files plus inputs.txt when present) are
    best-effort deleted on every exit path. -/
def process_video_with_presentation (failOp : Op → Bool)
    (removeFails : String → Bool) (slides : List Segment) (pdfPages : Nat)
    (video_path output_path : String) (fs0 : List String) : RunResult :=
  let c := processCore failOp slides pdfPages video_path output_path fs0
  { toCoreResult := c, fsFinal := cleanup_files removeFails c.fsPre c.tracked }

def UPLOADS_DIR : String := "uploads"

/-- Outcome of the celery task create_video_task. -/
structure TaskResult where
  success : Bool
  error : Option PipeError
  result_path : Option String
  run : RunResult
  fsFinal : List String
deriving DecidableEq

/-- output_path = os.path.join(UPLOADS_DIR, "processed_video_" + id + ".mp4"),
    written out in full at each occurrence below. -/
def taskOutputPath (taskId : String) : String :=
  pathJoin UPLOADS_DIR ("processed_video_" ++ taskId ++ ".mp4")

/-- create_video_task (celery_worker.py): build the output path from the
    task id, run the pipeline; on exception delete sources and the output
    path, re-raise; in all cases finally delete the three source files.
    The success branch never deletes output_path. -/
def create_video_task (failOp : Op → Bool) (removeFails : String → Bool)
    (taskId : String) (json_path pres_path video_path : String)
    (slides : List Segment) (pdfPages : Nat) (fs0 : List String) : TaskResult :=
  match (process_video_with_presentation failOp removeFails slides pdfPages
      video_path (taskOutputPath taskId) fs0).error with
  | none =>
      { success := true, error := none,
        result_path := some (taskOutputPath taskId),
        run := process_video_with_presentation failOp removeFails slides
          pdfPages video_path (taskOutputPath taskId) fs0,
        fsFinal := cleanup_files removeFails
          (process_video_with_presentation failOp removeFails slides pdfPages
            video_path (taskOutputPath taskId) fs0).fsFinal
          [json_path, pres_path, video_path] }
  | some e =>
      { success := false, error := some e, result_path := none,
        run := process_video_with_presentation failOp removeFails slides
          pdfPages video_path (taskOutputPath taskId) fs0,
        fsFinal := cleanup_files removeFails
          (cleanup_files removeFails
            (process_video_with_presentation failOp removeFails slides pdfPages
              video_path (taskOutputPath taskId) fs0).fsFinal
            [json_path, pres_path, video_path, taskOutputPath taskId])
          [json_path, pres_path, video_path] }

/-! ### Basic lemmas about the cleanup fold -/

theorem removeOne_subset (removeFails : String → Bool) (fs : List String)
    (p : String) : ∀ x ∈ removeOne removeFails fs p, x ∈ fs := by
  intro x hx
  unfold removeOne at hx
  split at hx
  · exact (List.mem_filter.mp hx).1
  · exact hx

theorem removeOne_not_mem (removeFails : String → Bool) (fs : List String)
    (p : String) (hrm : removeFails p = false) :
    p ∉ removeOne removeFails fs p := by
  unfold removeOne
  split
  · intro hp
    have := (List.mem_filter.mp hp).2
    simp at this
  · next h =>
      intro hp
      exact h ⟨hp, hrm⟩

theorem removeOne_mem_of_ne (removeFails : String → Bool) (fs : List String)
    (p x : String) (hx : x ∈ fs) (hne : x ≠ p) :
    x ∈ removeOne removeFails fs p := by
  unfold removeOne
  split
  · exact List.mem_filter.mpr ⟨hx, by simpa using hne⟩
  · exact hx

theorem cleanup_files_subset (removeFails : String → Bool) :
    ∀ (paths : List String) (fs : List String),
      ∀ x ∈ cleanup_files removeFails fs paths, x ∈ fs := by
  intro paths
  induction paths with
  | nil => intro fs x hx; exact hx
  | cons p paths ih =>
      intro fs x hx
      exact removeOne_subset removeFails fs p x (ih _ x hx)

theorem cleanup_files_not_mem (removeFails : String → Bool) :
    ∀ (paths : List String) (fs : List String) (p : String),
      p ∈ paths → removeFails p = false →
        p ∉ cleanup_files removeFails fs paths := by
  intro paths
  induction paths with
  | nil => intro fs p hp; simp at hp
  | cons q paths ih =>
      intro fs p hp hrm
      rcases List.mem_cons.mp hp with h | h
      · subst h
        by_cases hmem : p ∈ paths
        · exact ih _ p hmem hrm
        · intro hcontra
          have hsub := cleanup_files_subset removeFails paths
            (removeOne removeFails fs p) p hcontra
          exact removeOne_not_mem removeFails fs p hrm hsub
      · exact ih _ p h hrm

theorem cleanup_files_mem_of_not_mem (removeFails : String → Bool) :
    ∀ (paths : List String) (fs : List String) (x : String),
      x ∈ fs → x ∉ paths → x ∈ cleanup_files removeFails fs paths := by
  intro paths
  induction paths with
  | nil => intro fs x hx _; exact hx
  | cons p paths ih =>
      intro fs x hx hnp
      have hne : x ≠ p := fun h => hnp (h ▸ List.mem_cons_self p paths)
      have hnp' : x ∉ paths := fun h => hnp (List.mem_cons_of_mem p h)
      exact ih _ x (removeOne_mem_of_ne removeFails fs p x hx hne) hnp'

/-! ### Lemmas about the operation fold -/

theorem applyOps_nil (st : LoopState) : applyOps [] st = st := rfl

theorem applyOps_cons (o : Op) (ops : List Op) (st : LoopState) :
    applyOps (o :: ops) st = applyOps ops (applyOp o st) := rfl

theorem applyOps_ops (ops : List Op) : ∀ st : LoopState,
    (applyOps ops st).ops = st.ops ++ ops := by
  induction ops with
  | nil => intro st; simp [applyOps_nil]
  | cons o ops ih =>
      intro st
      rw [applyOps_cons, ih]
      simp [applyOp]

theorem applyOps_tmp (ops : List Op) : ∀ st : LoopState,
    (applyOps ops st).tmp = st.tmp ++ ops.map opOutput := by
  induction ops with
  | nil => intro st; simp [applyOps_nil]
  | cons o ops ih =>
      intro st
      rw [applyOps_cons, ih]
      simp [applyOp]

theorem applyOps_fs (ops : List Op) : ∀ st : LoopState,
    (applyOps ops st).fs = (ops.map opOutput).reverse ++ st.fs := by
  induction ops with
  | nil => intro st; simp [applyOps_nil]
  | cons o ops ih =>
      intro st
      rw [applyOps_cons, ih]
      simp [applyOp]

theorem applyOps_frags (ops : List Op) : ∀ st : LoopState,
    (applyOps ops st).frags = st.frags ++ (ops.filter opAddsFrag).map opOutput := by
  induction ops with
  | nil => intro st; simp [applyOps_nil]
  | cons o ops ih =>
      intro st
      rw [applyOps_cons, ih]
      cases hf : opAddsFrag o <;> simp [applyOp, hf, List.filter_cons]

theorem runOps_ok (failOp : Op → Bool) (ops : List Op) : ∀ st : LoopState,
    (∀ o ∈ ops, failOp o = false) →
      runOps failOp ops st = (applyOps ops st, none) := by
  induction ops with
  | nil => intro st _; rfl
  | cons o ops ih =>
      intro st h
      have ho : failOp o = false := h o (List.mem_cons_self o ops)
      rw [runOps, if_neg (by simp [ho]), applyOps_cons]
      exact ih _ (fun o' ho' => h o' (List.mem_cons_of_mem o ho'))

theorem runOps_append (failOp : Op → Bool) (a : List Op) : ∀ (b : List Op)
    (st : LoopState),
    runOps failOp (a ++ b) st =
      match runOps failOp a st with
      | (st', none) => runOps failOp b st'
      | (st', some op) => (st', some op) := by
  induction a with
  | nil => intro b st; rfl
  | cons o a ih =>
      intro b st
      cases ho : failOp o
      · rw [List.cons_append, runOps, if_neg (by simp [ho]), ih,
          runOps, if_neg (by simp [ho])]
      · rw [List.cons_append, runOps, if_pos (by simp [ho]),
          runOps, if_pos (by simp [ho])]

theorem runOps_fail (failOp : Op → Bool) (pre : List Op) (op : Op)
    (rest : List Op) (st : LoopState)
    (hpre : ∀ o ∈ pre, failOp o = false) (hop : failOp op = true) :
    runOps failOp (pre ++ op :: rest) st =
      ({ applyOps pre st with ops := (applyOps pre st).ops ++ [op] }, some op) := by
  rw [runOps_append, runOps_ok failOp pre st hpre]
  simp only [runOps, if_pos (by simp [hop] : failOp op = true)]

theorem runOps_tmp_mem (failOp : Op → Bool) (ops : List Op) :
    ∀ (st : LoopState) (x : String),
      x ∈ (runOps failOp ops st).1.tmp → x ∈ st.tmp ∨ x ∈ ops.map opOutput := by
  induction ops with
  | nil => intro st x hx; exact Or.inl hx
  | cons o ops ih =>
      intro st x hx
      cases ho : failOp o
      · rw [runOps, if_neg (by simp [ho])] at hx
        rcases ih _ x hx with h | h
        · rw [applyOp] at h
          rcases List.mem_append.mp h with h' | h'
          · exact Or.inl h'
          · simp at h'
            subst h'
            exact Or.inr (by simp)
        · exact Or.inr (by simp [h])
      · rw [runOps, if_pos (by simp [ho])] at hx
        exact Or.inl hx

theorem runOps_fs_mem (failOp : Op → Bool) (ops : List Op) :
    ∀ (st : LoopState) (x : String),
      x ∈ (runOps failOp ops st).1.fs → x ∈ st.fs ∨ x ∈ ops.map opOutput := by
  induction ops with
  | nil => intro st x hx; exact Or.inl hx
  | cons o ops ih =>
      intro st x hx
      cases ho : failOp o
      · rw [runOps, if_neg (by simp [ho])] at hx
        rcases ih _ x hx with h | h
        · rw [applyOp] at h
          rcases List.mem_cons.mp h with h' | h'
          · subst h'
            exact Or.inr (by simp)
          · exact Or.inl h'
        · exact Or.inr (by simp [h])
      · rw [runOps, if_pos (by simp [ho])] at hx
        exact Or.inl hx

/-! ### Lemmas about the planned operation list -/

theorem plannedSegOps_outputs (video_path temp_folder : String) (i : Nat)
    (s : Segment) :
    (plannedSegOps video_path temp_folder i s).map opOutput =
      [speakerCutPath temp_folder i, slideVidPath temp_folder i,
        speakerResizedPath temp_folder i, combinedPath temp_folder i] := rfl

theorem plannedOpsAux_outputs_det (video_path video_path' temp_folder : String) :
    ∀ (segs segs' : List Segment) (i : Nat), segs.length = segs'.length →
      (plannedOpsAux video_path temp_folder i segs).map opOutput =
        (plannedOpsAux video_path' temp_folder i segs').map opOutput := by
  intro segs
  induction segs with
  | nil =>
      intro segs' i h
      cases segs' with
      | nil => rfl
      | cons s' segs' => simp at h
  | cons s segs ih =>
      intro segs' i h
      cases segs' with
      | nil => simp at h
      | cons s' segs' =>
          rw [plannedOpsAux, plannedOpsAux, List.map_append, List.map_append,
            plannedSegOps_outputs, plannedSegOps_outputs,
            ih segs' (i + 1) (by simpa using h)]

theorem plannedOpsAux_frags (video_path temp_folder : String) :
    ∀ (segs : List Segment) (i : Nat),
      ((plannedOpsAux video_path temp_folder i segs).filter opAddsFrag).map opOutput =
        (List.range segs.length).map (fun k => combinedPath temp_folder (i + k)) := by
  intro segs
  induction segs with
  | nil => intro i; rfl
  | cons s segs ih =>
      intro i
      rw [plannedOpsAux, List.filter_append, List.map_append, ih (i + 1)]
      have hseg : ((plannedSegOps video_path temp_folder i s).filter
          opAddsFrag).map opOutput = [combinedPath temp_folder i] := by
        simp [plannedSegOps, List.filter, opAddsFrag, opOutput]
      rw [hseg]
      rw [List.length_cons, List.range_succ_eq_map]
      simp only [List.map_cons, List.map_map, List.singleton_append, Nat.add_zero]
      congr 1
      apply List.map_congr_left
      intro k _
      simp [Function.comp]
      congr 1
      omega

theorem plannedOps_frags (video_path temp_folder : String) (segs : List Segment) :
    ((plannedOps video_path temp_folder segs).filter opAddsFrag).map opOutput =
      plannedFrags temp_folder segs.length := by
  rw [plannedOps, plannedOpsAux_frags, plannedFrags]
  apply List.map_congr_left
  intro k _
  simp

theorem plannedOpsAux_get (video_path temp_folder : String) :
    ∀ (segs : List Segment) (i j : Nat) (s : Segment), segs.get? i = some s →
      ∃ pre post, plannedOpsAux video_path temp_folder j segs =
        pre ++ plannedSegOps video_path temp_folder (j + i) s ++ post := by
  intro segs
  induction segs with
  | nil => intro i j s h; simp [List.get?] at h
  | cons a segs ih =>
      intro i j s h
      cases i with
      | zero =>
          have ha : a = s := by simpa using h
          subst ha
          exact ⟨[], plannedOpsAux video_path temp_folder (j + 1) segs,
            by simp [plannedOpsAux]⟩
      | succ i =>
          obtain ⟨pre, post, hp⟩ := ih i (j + 1) s (by simpa using h)
          refine ⟨plannedSegOps video_path temp_folder j a ++ pre, post, ?_⟩
          have harith : j + 1 + i = j + (i + 1) := by omega
          rw [plannedOpsAux, hp, harith]
          simp [List.append_assoc]

/-! ### Characterizations of processCore -/

theorem processCore_mismatch (failOp : Op → Bool) (slides : List Segment)
    (pdfPages : Nat) (video_path output_path : String) (fs0 : List String)
    (hne : slides.length ≠ pdfPages) :
    processCore failOp slides pdfPages video_path output_path fs0 =
      { error := some (.countMismatch slides.length pdfPages), ops := [],
        madeOutputFolder := false, rasterized := false, tracked := [],
        manifest := none, frags := [], fsPre := fs0 } := by
  rw [processCore, if_neg hne]

theorem processCore_ok (failOp : Op → Bool) (slides : List Segment)
    (pdfPages : Nat) (video_path output_path : String) (fs0 : List String)
    (hc : slides.length = pdfPages)
    (hall : ∀ o ∈ plannedOps video_path (dirname output_path) slides,
      failOp o = false)
    (hcop : failOp (Op.concatVideos
      (plannedFrags (dirname output_path) slides.length) output_path) = false) :
    processCore failOp slides pdfPages video_path output_path fs0 =
      { error := none,
        ops := plannedOps video_path (dirname output_path) slides ++
          [Op.concatVideos (plannedFrags (dirname output_path) slides.length)
            output_path],
        madeOutputFolder := true, rasterized := true,
        tracked := convert_pdf_to_images (dirname output_path) slides.length ++
          (plannedOps video_path (dirname output_path) slides).map opOutput ++
          [manifestPath],
        manifest := some (plannedFrags (dirname output_path) slides.length),
        frags := plannedFrags (dirname output_path) slides.length,
        fsPre := output_path :: manifestPath ::
          (((plannedOps video_path (dirname output_path) slides).map
            opOutput).reverse ++
            (convert_pdf_to_images (dirname output_path) slides.length ++ fs0)) } := by
  subst hc
  rw [processCore, if_pos rfl]
  simp only
  rw [runOps_ok failOp _ _ hall]
  simp only
  have hst := applyOps_frags (plannedOps video_path (dirname output_path) slides)
    { fs := convert_pdf_to_images (dirname output_path) slides.length ++ fs0,
      tmp := convert_pdf_to_images (dirname output_path) slides.length,
      frags := [], ops := [] }
  rw [plannedOps_frags] at hst
  simp only [List.nil_append] at hst
  rw [hst, hcop]
  simp only [Bool.false_eq_true, if_false]
  rw [applyOps_ops, applyOps_tmp, applyOps_fs]
  simp only [List.nil_append]
  rw [trackedWithManifest, if_pos (by simp : manifestPath ∈ _)]

theorem processCore_fail (failOp : Op → Bool) (slides : List Segment)
    (pdfPages : Nat) (video_path output_path : String) (fs0 : List String)
    (hc : slides.length = pdfPages)
    (pre : List Op) (op : Op) (rest : List Op)
    (hplan : plannedOps video_path (dirname output_path) slides =
      pre ++ op :: rest)
    (hpre : ∀ o ∈ pre, failOp o = false) (hop : failOp op = true) :
    processCore failOp slides pdfPages video_path output_path fs0 =
      { error := some (.transcode op), ops := pre ++ [op],
        madeOutputFolder := true, rasterized := true,
        tracked := trackedWithManifest
          (convert_pdf_to_images (dirname output_path) slides.length ++
            pre.map opOutput)
          ((pre.map opOutput).reverse ++
            (convert_pdf_to_images (dirname output_path) slides.length ++ fs0)),
        manifest := none, frags := (pre.filter opAddsFrag).map opOutput,
        fsPre := (pre.map opOutput).reverse ++
          (convert_pdf_to_images (dirname output_path) slides.length ++ fs0) } := by
  subst hc
  rw [processCore, if_pos rfl]
  simp only
  rw [hplan, runOps_fail failOp pre op rest _ hpre hop]
  simp only
  rw [applyOps_ops, applyOps_tmp, applyOps_fs, applyOps_frags]
  simp only [List.nil_append]

theorem processCore_tracked_subset (failOp : Op → Bool) (slides : List Segment)
    (pdfPages : Nat) (video_path output_path : String) (fs0 : List String)
    (hc : slides.length = pdfPages) :
    ∀ p ∈ (processCore failOp slides pdfPages video_path output_path fs0).tracked,
      p ∈ plannedCleanupNames video_path (dirname output_path) slides := by
  subst hc
  intro p hp
  rw [processCore, if_pos rfl] at hp
  simp only at hp
  rcases hrun : runOps failOp
      (plannedOps video_path (dirname output_path) slides)
      { fs := convert_pdf_to_images (dirname output_path) slides.length ++ fs0,
        tmp := convert_pdf_to_images (dirname output_path) slides.length,
        frags := [], ops := [] } with ⟨st, f⟩
  have htmp : ∀ x ∈ st.tmp,
      x ∈ convert_pdf_to_images (dirname output_path) slides.length ∨
        x ∈ (plannedOps video_path (dirname output_path) slides).map opOutput := by
    intro x hx
    have := runOps_tmp_mem failOp _ _ x (by rw [hrun] at *; exact hx)
    simpa using this
  rw [hrun] at hp
  have hfin : p ∈ st.tmp ∨ p = manifestPath := by
    cases f with
    | some op =>
        simp only [trackedWithManifest] at hp
        rcases List.mem_append.mp hp with h | h
        · exact Or.inl h
        · right
          by_cases hm : manifestPath ∈ st.fs
          · rw [if_pos hm] at h; simpa using h
          · rw [if_neg hm] at h; simp at h
    | none =>
        dsimp only at hp
        by_cases hcop : failOp (Op.concatVideos st.frags output_path) = true
        · rw [if_pos hcop] at hp
          simp only [trackedWithManifest] at hp
          rcases List.mem_append.mp hp with h | h
          · exact Or.inl h
          · right
            split at h
            · simpa using h
            · simp at h
        · rw [if_neg hcop] at hp
          simp only [trackedWithManifest] at hp
          rcases List.mem_append.mp hp with h | h
          · exact Or.inl h
          · right
            split at h
            · simpa using h
            · simp at h
  rcases hfin with h | h
  · rcases htmp p h with h' | h'
    · exact by simp [plannedCleanupNames, h']
    · exact by simp [plannedCleanupNames, h']
  · exact by simp [plannedCleanupNames, h]

theorem processCore_manifest_tracked (failOp : Op → Bool)
    (slides : List Segment) (pdfPages : Nat) (video_path output_path : String)
    (fs0 : List String) :
    (processCore failOp slides pdfPages video_path output_path fs0).manifest ≠
        none →
      manifestPath ∈
        (processCore failOp slides pdfPages video_path output_path fs0).tracked := by
  intro hman
  by_cases hc : slides.length = pdfPages
  · subst hc
    rw [processCore, if_pos rfl] at hman ⊢
    simp only at hman ⊢
    rcases hrun : runOps failOp
        (plannedOps video_path (dirname output_path) slides)
        { fs := convert_pdf_to_images (dirname output_path) slides.length ++ fs0,
          tmp := convert_pdf_to_images (dirname output_path) slides.length,
          frags := [], ops := [] } with ⟨st, f⟩
    rw [hrun] at hman
    cases f with
    | some op => simp at hman
    | none =>
        dsimp only at hman ⊢
        by_cases hcop : failOp (Op.concatVideos st.frags output_path) = true
        · rw [if_pos hcop]
          simp [trackedWithManifest]
        · rw [if_neg hcop]
          simp [trackedWithManifest]
  · rw [processCore_mismatch failOp slides pdfPages video_path output_path fs0
      hc] at hman
    simp at hman

theorem create_video_task_ok (failOp : Op → Bool) (removeFails : String → Bool)
    (taskId json_path pres_path video_path : String) (slides : List Segment)
    (pdfPages : Nat) (fs0 : List String)
    (he : (processCore failOp slides pdfPages video_path (taskOutputPath taskId)
      fs0).error = none) :
    create_video_task failOp removeFails taskId json_path pres_path video_path
        slides pdfPages fs0 =
      { success := true, error := none,
        result_path := some (taskOutputPath taskId),
        run := process_video_with_presentation failOp removeFails slides
          pdfPages video_path (taskOutputPath taskId) fs0,
        fsFinal := cleanup_files removeFails
          (process_video_with_presentation failOp removeFails slides pdfPages
            video_path (taskOutputPath taskId) fs0).fsFinal
          [json_path, pres_path, video_path] } := by
  have he' : (process_video_with_presentation failOp removeFails slides pdfPages
      video_path (taskOutputPath taskId) fs0).error = none := he
  rw [create_video_task, he']

theorem create_video_task_fail (failOp : Op → Bool) (removeFails : String → Bool)
    (taskId json_path pres_path video_path : String) (slides : List Segment)
    (pdfPages : Nat) (fs0 : List String) (e : PipeError)
    (he : (processCore failOp slides pdfPages video_path (taskOutputPath taskId)
      fs0).error = some e) :
    create_video_task failOp removeFails taskId json_path pres_path video_path
        slides pdfPages fs0 =
      { success := false, error := some e, result_path := none,
        run := process_video_with_presentation failOp removeFails slides
          pdfPages video_path (taskOutputPath taskId) fs0,
        fsFinal := cleanup_files removeFails
          (cleanup_files removeFails
            (process_video_with_presentation failOp removeFails slides pdfPages
              video_path (taskOutputPath taskId) fs0).fsFinal
            [json_path, pres_path, video_path, taskOutputPath taskId])
          [json_path, pres_path, video_path] } := by
  have he' : (process_video_with_presentation failOp removeFails slides pdfPages
      video_path (taskOutputPath taskId) fs0).error = some e := he
  rw [create_video_task, he']

/-! ### Sample inputs used by the witnesses -/

def noFail : Op → Bool := fun _ => false

def noRemoveFail : String → Bool := fun _ => false

def sampleSeg0 : Segment := { title := "intro", start := 0, «end» := 5 }

def sampleSeg1 : Segment := { title := "body", start := 5, «end» := 9 }

def sampleSegs : List Segment := [sampleSeg0, sampleSeg1]

def sampleVid : String := "uploads/in.mp4"

def sampleOut : String := "uploads/out.mp4"

def sampleJson : String := "uploads/tl.json"

def samplePres : String := "uploads/deck.pdf"

/-! ### Claim theorems -/

/-- C2: for every SourceSet whose segment count differs from the page count, the
run raises the validation error carrying both counts, with no output folder
created, no page rasterized, no transcoding operation invoked, no path ever
tracked for cleanup, and the filesystem left exactly as it was — no
intermediate artifact is created. -/
theorem count_mismatch_fails_before_any_work (failOp : Op → Bool)
    (removeFails : String → Bool) (slides : List Segment) (pdfPages : Nat)
    (video_path output_path : String) (fs0 : List String)
    (r : RunResult)
    (hr : r = process_video_with_presentation failOp removeFails slides pdfPages
      video_path output_path fs0)
    (hne : slides.length ≠ pdfPages) :
    r.error = some (PipeError.countMismatch slides.length pdfPages) ∧
    r.ops = [] ∧ r.madeOutputFolder = false ∧ r.rasterized = false ∧
    r.tracked = [] ∧ r.fsFinal = fs0 := by
  subst hr
  have h := processCore_mismatch failOp slides pdfPages video_path output_path
    fs0 hne
  simp [process_video_with_presentation, h, cleanup_files]

theorem count_mismatch_fails_before_any_work_witness :
    (process_video_with_presentation noFail noRemoveFail sampleSegs 3 sampleVid
        sampleOut []).error =
      some (PipeError.countMismatch sampleSegs.length 3) ∧
    (process_video_with_presentation noFail noRemoveFail sampleSegs 3 sampleVid
        sampleOut []).ops = [] ∧
    (process_video_with_presentation noFail noRemoveFail sampleSegs 3 sampleVid
        sampleOut []).madeOutputFolder = false ∧
    (process_video_with_presentation noFail noRemoveFail sampleSegs 3 sampleVid
        sampleOut []).rasterized = false ∧
    (process_video_with_presentation noFail noRemoveFail sampleSegs 3 sampleVid
        sampleOut []).tracked = [] ∧
    (process_video_with_presentation noFail noRemoveFail sampleSegs 3 sampleVid
        sampleOut []).fsFinal = [] :=
  count_mismatch_fails_before_any_work noFail noRemoveFail sampleSegs 3
    sampleVid sampleOut [] _ rfl (by decide)

/-- C1: on every exit path of process_video_with_presentation — normal return
after a successful concatenation, or propagation of any failure raised after
rasterization — the finally-step deletes every artifact tracked in the cleanup
set (when the deletions themselves succeed), deletes the manifest file
whenever it was created, and the final output path is never a member of the
cleanup set, so the cleanup step never deletes a produced final artifact. -/
theorem cleanup_always_deletes_tracked_spares_output (failOp : Op → Bool)
    (removeFails : String → Bool) (slides : List Segment) (pdfPages : Nat)
    (video_path output_path : String) (fs0 : List String) (r : RunResult)
    (hr : r = process_video_with_presentation failOp removeFails slides pdfPages
      video_path output_path fs0)
    (hrm : ∀ p, removeFails p = false)
    (hout : output_path ∉
      plannedCleanupNames video_path (dirname output_path) slides) :
    (∀ p ∈ r.tracked, p ∉ r.fsFinal) ∧
    (r.manifest ≠ none → manifestPath ∈ r.tracked) ∧
    output_path ∉ r.tracked ∧
    (output_path ∈ r.fsPre → output_path ∈ r.fsFinal) := by
  have htr : r.tracked =
      (processCore failOp slides pdfPages video_path output_path fs0).tracked := by
    rw [hr]; rfl
  have hfsp : r.fsPre =
      (processCore failOp slides pdfPages video_path output_path fs0).fsPre := by
    rw [hr]; rfl
  have hman : r.manifest =
      (processCore failOp slides pdfPages video_path output_path fs0).manifest := by
    rw [hr]; rfl
  have hfsf : r.fsFinal = cleanup_files removeFails
      (processCore failOp slides pdfPages video_path output_path fs0).fsPre
      (processCore failOp slides pdfPages video_path output_path fs0).tracked := by
    rw [hr]; rfl
  have hnotin : output_path ∉
      (processCore failOp slides pdfPages video_path output_path fs0).tracked := by
    intro hmem
    by_cases hc : slides.length = pdfPages
    · exact hout (processCore_tracked_subset failOp slides pdfPages video_path
        output_path fs0 hc output_path hmem)
    · rw [processCore_mismatch failOp slides pdfPages video_path output_path fs0
        hc] at hmem
      simp at hmem
  refine ⟨?_, ?_, ?_, ?_⟩
  · intro p hp
    rw [hfsf]
    exact cleanup_files_not_mem removeFails _ _ p (htr ▸ hp) (hrm p)
  · intro hm
    rw [htr]
    exact processCore_manifest_tracked failOp slides pdfPages video_path
      output_path fs0 (by rw [hman] at hm; exact hm)
  · rw [htr]
    exact hnotin
  · intro hpre
    rw [hfsf]
    exact cleanup_files_mem_of_not_mem removeFails _ _ output_path
      (hfsp ▸ hpre) hnotin

def sampleRun : RunResult :=
  process_video_with_presentation noFail noRemoveFail sampleSegs 2 sampleVid
    sampleOut []

theorem cleanup_always_deletes_tracked_spares_output_witness :
    (∀ p ∈ sampleRun.tracked, p ∉ sampleRun.fsFinal) ∧
    (sampleRun.manifest ≠ none → manifestPath ∈ sampleRun.tracked) ∧
    sampleOut ∉ sampleRun.tracked ∧
    (sampleOut ∈ sampleRun.fsPre → sampleOut ∈ sampleRun.fsFinal) :=
  cleanup_always_deletes_tracked_spares_output noFail noRemoveFail sampleSegs 2
    sampleVid sampleOut [] sampleRun rfl (fun _ => rfl) (by decide)

/-- C6: artifact-path planning is deterministic and idempotent — the planned
intermediate paths depend only on the working directory and the indices (not on
the narration path nor on the segments' contents, only their count), rasterized
page images are named by 1-indexed zero-padded page number, per-segment
trimmed/slide/resized/composed clips by 0-indexed zero-padded segment
number. -/
theorem planner_deterministic_naming (video_path video_path' temp_folder : String)
    (segs segs' : List Segment) (h : segs.length = segs'.length) :
    (plannedOps video_path temp_folder segs).map opOutput =
      (plannedOps video_path' temp_folder segs').map opOutput ∧
    convert_pdf_to_images temp_folder segs.length =
      convert_pdf_to_images temp_folder segs'.length ∧
    (∀ i, slideImagePath temp_folder i =
      pathJoin temp_folder ( "slide_" ++ pad2 (i + 1) ++ ".png")) ∧
    (∀ i (s : Segment), (plannedSegOps video_path temp_folder i s).map opOutput =
      [ pathJoin temp_folder ( "speaker_" ++ pad2 i ++ ".mp4"),
        pathJoin temp_folder ( "slide_" ++ pad2 i ++ ".mp4"),
        pathJoin temp_folder ( "speaker_" ++ pad2 i ++ "_resized.mp4"),
        pathJoin temp_folder ( "combined_" ++ pad2 i ++ ".mp4") ]) ∧
    (∀ n, n < 10 → pad2 n = "0" ++ toString n) ∧
    (∀ n, 10 ≤ n → pad2 n = toString n) := by
  refine ⟨plannedOpsAux_outputs_det video_path video_path' temp_folder segs segs'
    0 h, by rw [h], fun i => rfl, fun i s => rfl, ?_, ?_⟩
  · intro n hn
    rw [pad2, if_pos hn]
  · intro n hn
    rw [pad2, if_neg (by omega)]

theorem planner_deterministic_naming_witness :
    (plannedOps sampleVid UPLOADS_DIR sampleSegs).map opOutput =
      (plannedOps samplePres UPLOADS_DIR
        [sampleSeg1, sampleSeg0]).map opOutput ∧
    convert_pdf_to_images UPLOADS_DIR sampleSegs.length =
      convert_pdf_to_images UPLOADS_DIR ([sampleSeg1, sampleSeg0]).length ∧
    (∀ i, slideImagePath UPLOADS_DIR i =
      pathJoin UPLOADS_DIR ( "slide_" ++ pad2 (i + 1) ++ ".png")) ∧
    (∀ i (s : Segment), (plannedSegOps sampleVid UPLOADS_DIR i s).map opOutput =
      [ pathJoin UPLOADS_DIR ( "speaker_" ++ pad2 i ++ ".mp4"),
        pathJoin UPLOADS_DIR ( "slide_" ++ pad2 i ++ ".mp4"),
        pathJoin UPLOADS_DIR ( "speaker_" ++ pad2 i ++ "_resized.mp4"),
        pathJoin UPLOADS_DIR ( "combined_" ++ pad2 i ++ ".mp4") ]) ∧
    (∀ n, n < 10 → pad2 n = "0" ++ toString n) ∧
    (∀ n, 10 ≤ n → pad2 n = toString n) :=
  planner_deterministic_naming sampleVid samplePres UPLOADS_DIR sampleSegs
    [sampleSeg1, sampleSeg0] (by decide)

/-- C4 (amended): after all segments succeed, the concatenation is driven by
one manifest file at the fixed relative path inputs.txt — resolved in the
process's current working directory and shared by all jobs, not persisted
inside the job's working directory — whose recorded list is exactly the
composed fragment paths in segment order (entry i is segment i's fragment, so
fragment i precedes fragment i+1), written one path per line wrapped in single
quotes, and the concat invocation is a copy-only join (-c copy, no
re-encoding). -/
theorem concat_manifest_order_and_copy (failOp : Op → Bool)
    (removeFails : String → Bool) (slides : List Segment) (pdfPages : Nat)
    (video_path output_path : String) (fs0 : List String) (r : RunResult)
    (hr : r = process_video_with_presentation failOp removeFails slides pdfPages
      video_path output_path fs0)
    (hc : slides.length = pdfPages)
    (hall : ∀ o, failOp o = false) :
    r.manifest = some (plannedFrags (dirname output_path) slides.length) ∧
    (∀ i (h : i < (plannedFrags (dirname output_path) slides.length).length),
      (plannedFrags (dirname output_path) slides.length).get ⟨i, h⟩ =
        combinedPath (dirname output_path) i) ∧
    r.ops.getLast? = some (Op.concatVideos
      (plannedFrags (dirname output_path) slides.length) output_path) ∧
    manifestContent (plannedFrags (dirname output_path) slides.length) =
      String.join ((plannedFrags (dirname output_path) slides.length).map
        (fun v => "file \x27" ++ v ++ "\x27\n")) ∧
    opCmd (Op.concatVideos (plannedFrags (dirname output_path) slides.length)
        output_path) =
      [ "ffmpeg", "-f", "concat", "-safe", "0", "-i", manifestPath,
        "-hide_banner", "-c", "copy", "-y", output_path] := by
  have hok := processCore_ok failOp slides pdfPages video_path output_path fs0
    hc (fun o _ => hall o) (hall _)
  refine ⟨?_, ?_, ?_, rfl, rfl⟩
  · have : r.manifest =
        (processCore failOp slides pdfPages video_path output_path fs0).manifest := by
      rw [hr]; rfl
    rw [this, hok]
  · intro i h
    simp [plannedFrags]
  · have : r.ops =
        (processCore failOp slides pdfPages video_path output_path fs0).ops := by
      rw [hr]; rfl
    rw [this, hok]
    exact List.getLast?_concat _

theorem concat_manifest_order_and_copy_witness :
    sampleRun.manifest =
      some (plannedFrags (dirname sampleOut) sampleSegs.length) ∧
    (∀ i (h : i <
        (plannedFrags (dirname sampleOut) sampleSegs.length).length),
      (plannedFrags (dirname sampleOut) sampleSegs.length).get ⟨i, h⟩ =
        combinedPath (dirname sampleOut) i) ∧
    sampleRun.ops.getLast? = some (Op.concatVideos
      (plannedFrags (dirname sampleOut) sampleSegs.length) sampleOut) ∧
    manifestContent (plannedFrags (dirname sampleOut) sampleSegs.length) =
      String.join ((plannedFrags (dirname sampleOut) sampleSegs.length).map
        (fun v => "file \x27" ++ v ++ "\x27\n")) ∧
    opCmd (Op.concatVideos (plannedFrags (dirname sampleOut) sampleSegs.length)
        sampleOut) =
      [ "ffmpeg", "-f", "concat", "-safe", "0", "-i", manifestPath,
        "-hide_banner", "-c", "copy", "-y", sampleOut] :=
  concat_manifest_order_and_copy noFail noRemoveFail sampleSegs 2 sampleVid
    sampleOut [] sampleRun rfl (by decide) (fun _ => rfl)

/-- C4 counterexample: in a fully successful concrete run the manifest is
created at the fixed relative path inputs.txt, whose directory is the current
working directory and not the run's working directory (uploads); no file named
inputs.txt inside the working directory is ever created. So the claim that the
manifest is persisted within the job's working directory fails on this
input. -/
theorem concat_manifest_not_in_workdir_cex :
    sampleRun.manifest =
      some [combinedPath UPLOADS_DIR 0, combinedPath UPLOADS_DIR 1] ∧
    manifestPath ∈ sampleRun.fsPre ∧
    dirname manifestPath ≠ dirname sampleOut ∧
    pathJoin (dirname sampleOut) manifestPath ∉ sampleRun.fsPre := by
  decide

/-- C5: in a successful run, segment i's external operations appear in the
trace as the four planned ones in order — a trim of the narration clip to the
window from start to end (ffmpeg -ss start -to end), a render of segment i's
slide image into a static clip of duration end - start (-t), a resize of the
trimmed clip, and a side-by-side composition whose first input is the slide
clip and second input is the resized narration clip, taking video from the
hstack filter graph and audio only from input 1 (the narration clip) with the
optional marker, tolerating absent audio. -/
theorem segment_ops_trim_render_compose (failOp : Op → Bool)
    (removeFails : String → Bool) (slides : List Segment) (pdfPages : Nat)
    (video_path output_path : String) (fs0 : List String) (i : Nat)
    (s : Segment) (r : RunResult)
    (hr : r = process_video_with_presentation failOp removeFails slides pdfPages
      video_path output_path fs0)
    (hc : slides.length = pdfPages)
    (hall : ∀ o, failOp o = false)
    (hi : slides.get? i = some s) :
    (∃ pre post, r.ops =
      pre ++ plannedSegOps video_path (dirname output_path) i s ++ post) ∧
    plannedSegOps video_path (dirname output_path) i s =
      [ Op.cutVideo video_path s.start s.«end»
          (speakerCutPath (dirname output_path) i),
        Op.slideToVideo (slideImagePath (dirname output_path) i)
          (s.«end» - s.start) (slideVidPath (dirname output_path) i),
        Op.resizeVideo (speakerCutPath (dirname output_path) i)
          (speakerResizedPath (dirname output_path) i),
        Op.combineVideos (slideVidPath (dirname output_path) i)
          (speakerResizedPath (dirname output_path) i)
          (combinedPath (dirname output_path) i) ] ∧
    opCmd (Op.cutVideo video_path s.start s.«end»
        (speakerCutPath (dirname output_path) i)) =
      [ "ffmpeg", "-ss", toString s.start, "-to", toString s.«end», "-i",
        video_path, "-hide_banner", "-c:v", "libx264", "-c:a", "aac", "-y",
        speakerCutPath (dirname output_path) i] ∧
    opCmd (Op.slideToVideo (slideImagePath (dirname output_path) i)
        (s.«end» - s.start) (slideVidPath (dirname output_path) i)) =
      [ "ffmpeg", "-loop", "1", "-i", slideImagePath (dirname output_path) i,
        "-hide_banner", "-t", toString (s.«end» - s.start), "-vf",
        "scale=1080:1080", "-c:v", "libx264", "-y",
        slideVidPath (dirname output_path) i] ∧
    opCmd (Op.combineVideos (slideVidPath (dirname output_path) i)
        (speakerResizedPath (dirname output_path) i)
        (combinedPath (dirname output_path) i)) =
      [ "ffmpeg", "-i", slideVidPath (dirname output_path) i, "-i",
        speakerResizedPath (dirname output_path) i, "-hide_banner",
        "-filter_complex", "[0:v][1:v]hstack=inputs=2[v]", "-map", "[v]",
        "-map", "1:a?", "-c:v", "libx264", "-c:a", "aac", "-y",
        combinedPath (dirname output_path) i] := by
  refine ⟨?_, rfl, rfl, rfl, rfl⟩
  obtain ⟨pre, post, hp⟩ := plannedOpsAux_get video_path (dirname output_path)
    slides i 0 s hi
  rw [Nat.zero_add] at hp
  have hops : r.ops =
      plannedOps video_path (dirname output_path) slides ++
        [Op.concatVideos (plannedFrags (dirname output_path) slides.length)
          output_path] := by
    have h1 : r.ops =
        (processCore failOp slides pdfPages video_path output_path fs0).ops := by
      rw [hr]; rfl
    rw [h1, processCore_ok failOp slides pdfPages video_path output_path fs0 hc
      (fun o _ => hall o) (hall _)]
  refine ⟨pre, post ++
    [Op.concatVideos (plannedFrags (dirname output_path) slides.length)
      output_path], ?_⟩
  rw [hops, plannedOps, hp]
  simp [List.append_assoc]

theorem segment_ops_trim_render_compose_witness :
    (∃ pre post, sampleRun.ops =
      pre ++ plannedSegOps sampleVid (dirname sampleOut) 1 sampleSeg1 ++ post) ∧
    plannedSegOps sampleVid (dirname sampleOut) 1 sampleSeg1 =
      [ Op.cutVideo sampleVid sampleSeg1.start sampleSeg1.«end»
          (speakerCutPath (dirname sampleOut) 1),
        Op.slideToVideo (slideImagePath (dirname sampleOut) 1)
          (sampleSeg1.«end» - sampleSeg1.start) (slideVidPath (dirname sampleOut) 1),
        Op.resizeVideo (speakerCutPath (dirname sampleOut) 1)
          (speakerResizedPath (dirname sampleOut) 1),
        Op.combineVideos (slideVidPath (dirname sampleOut) 1)
          (speakerResizedPath (dirname sampleOut) 1)
          (combinedPath (dirname sampleOut) 1) ] ∧
    opCmd (Op.cutVideo sampleVid sampleSeg1.start sampleSeg1.«end»
        (speakerCutPath (dirname sampleOut) 1)) =
      [ "ffmpeg", "-ss", toString sampleSeg1.start, "-to",
        toString sampleSeg1.«end», "-i", sampleVid, "-hide_banner", "-c:v",
        "libx264", "-c:a", "aac", "-y", speakerCutPath (dirname sampleOut) 1] ∧
    opCmd (Op.slideToVideo (slideImagePath (dirname sampleOut) 1)
        (sampleSeg1.«end» - sampleSeg1.start)
        (slideVidPath (dirname sampleOut) 1)) =
      [ "ffmpeg", "-loop", "1", "-i", slideImagePath (dirname sampleOut) 1,
        "-hide_banner", "-t", toString (sampleSeg1.«end» - sampleSeg1.start),
        "-vf", "scale=1080:1080", "-c:v", "libx264", "-y",
        slideVidPath (dirname sampleOut) 1] ∧
    opCmd (Op.combineVideos (slideVidPath (dirname sampleOut) 1)
        (speakerResizedPath (dirname sampleOut) 1)
        (combinedPath (dirname sampleOut) 1)) =
      [ "ffmpeg", "-i", slideVidPath (dirname sampleOut) 1, "-i",
        speakerResizedPath (dirname sampleOut) 1, "-hide_banner",
        "-filter_complex", "[0:v][1:v]hstack=inputs=2[v]", "-map", "[v]",
        "-map", "1:a?", "-c:v", "libx264", "-c:a", "aac", "-y",
        combinedPath (dirname sampleOut) 1] :=
  segment_ops_trim_render_compose noFail noRemoveFail sampleSegs 2 sampleVid
    sampleOut [] 1 sampleSeg1 sampleRun rfl (by decide) (fun _ => rfl)
    (by decide)

/-- C8: failures of the deletion calls in the cleanup steps are swallowed —
the run's reported error, and the task's success flag, reported error and
result path, are identical whatever the remove-failure oracle says, so a
cleanup deletion failure never changes the run's outcome. -/
theorem cleanup_errors_never_change_outcome (failOp : Op → Bool)
    (removeFails removeFails' : String → Bool) (slides : List Segment)
    (pdfPages : Nat) (video_path output_path : String) (fs0 : List String)
    (taskId json_path pres_path : String) :
    (process_video_with_presentation failOp removeFails slides pdfPages
        video_path output_path fs0).error =
      (process_video_with_presentation failOp removeFails' slides pdfPages
        video_path output_path fs0).error ∧
    (create_video_task failOp removeFails taskId json_path pres_path video_path
        slides pdfPages fs0).success =
      (create_video_task failOp removeFails' taskId json_path pres_path
        video_path slides pdfPages fs0).success ∧
    (create_video_task failOp removeFails taskId json_path pres_path video_path
        slides pdfPages fs0).error =
      (create_video_task failOp removeFails' taskId json_path pres_path
        video_path slides pdfPages fs0).error ∧
    (create_video_task failOp removeFails taskId json_path pres_path video_path
        slides pdfPages fs0).result_path =
      (create_video_task failOp removeFails' taskId json_path pres_path
        video_path slides pdfPages fs0).result_path := by
  refine ⟨rfl, ?_, ?_, ?_⟩ <;>
    cases h : (processCore failOp slides pdfPages video_path
        (taskOutputPath taskId) fs0).error <;>
      simp [create_video_task, process_video_with_presentation, h]

/-- C9: loop invariant of the cleanup accumulator — the accumulator starts as
exactly the rasterized page images, and at every prefix point of the planned
operation sequence (all earlier operations having succeeded) it equals the
images followed by the outputs of exactly the completed operations, each output
having been appended before the next operation began; the full run passes
through that very state. -/
theorem loop_invariant_accumulator (failOp : Op → Bool) (slides : List Segment)
    (pdfPages : Nat) (video_path output_path : String) (fs0 : List String)
    (a b : List Op) (st0 : LoopState)
    (hsplit : plannedOps video_path (dirname output_path) slides = a ++ b)
    (ha : ∀ o ∈ a, failOp o = false)
    (hst0 : st0 =
      { fs := convert_pdf_to_images (dirname output_path) pdfPages ++ fs0,
        tmp := convert_pdf_to_images (dirname output_path) pdfPages,
        frags := [], ops := [] }) :
    st0.tmp = convert_pdf_to_images (dirname output_path) pdfPages ∧
    (runOps failOp a st0).1.tmp =
      convert_pdf_to_images (dirname output_path) pdfPages ++ a.map opOutput ∧
    (runOps failOp a st0).2 = none ∧
    runOps failOp (plannedOps video_path (dirname output_path) slides) st0 =
      runOps failOp b (runOps failOp a st0).1 := by
  subst hst0
  refine ⟨rfl, ?_, ?_, ?_⟩
  · rw [runOps_ok failOp a _ ha]
    rw [applyOps_tmp]
  · rw [runOps_ok failOp a _ ha]
  · rw [hsplit, runOps_append, runOps_ok failOp a _ ha]

theorem loop_invariant_accumulator_witness :
    ({ fs := convert_pdf_to_images (dirname sampleOut) 2 ++ [],
       tmp := convert_pdf_to_images (dirname sampleOut) 2,
       frags := [], ops := [] } : LoopState).tmp =
      convert_pdf_to_images (dirname sampleOut) 2 ∧
    (runOps noFail (plannedSegOps sampleVid (dirname sampleOut) 0 sampleSeg0)
        { fs := convert_pdf_to_images (dirname sampleOut) 2 ++ [],
          tmp := convert_pdf_to_images (dirname sampleOut) 2,
          frags := [], ops := [] }).1.tmp =
      convert_pdf_to_images (dirname sampleOut) 2 ++
        (plannedSegOps sampleVid (dirname sampleOut) 0 sampleSeg0).map opOutput ∧
    (runOps noFail (plannedSegOps sampleVid (dirname sampleOut) 0 sampleSeg0)
        { fs := convert_pdf_to_images (dirname sampleOut) 2 ++ [],
          tmp := convert_pdf_to_images (dirname sampleOut) 2,
          frags := [], ops := [] }).2 = none ∧
    runOps noFail (plannedOps sampleVid (dirname sampleOut) sampleSegs)
        { fs := convert_pdf_to_images (dirname sampleOut) 2 ++ [],
          tmp := convert_pdf_to_images (dirname sampleOut) 2,
          frags := [], ops := [] } =
      runOps noFail (plannedSegOps sampleVid (dirname sampleOut) 1 sampleSeg1)
        (runOps noFail (plannedSegOps sampleVid (dirname sampleOut) 0 sampleSeg0)
          { fs := convert_pdf_to_images (dirname sampleOut) 2 ++ [],
            tmp := convert_pdf_to_images (dirname sampleOut) 2,
            frags := [], ops := [] }).1 :=
  loop_invariant_accumulator noFail sampleSegs 2 sampleVid sampleOut []
    (plannedSegOps sampleVid (dirname sampleOut) 0 sampleSeg0)
    (plannedSegOps sampleVid (dirname sampleOut) 1 sampleSeg1) _
    (by decide) (by decide) rfl

/-- C3: if one segment operation fails while every earlier operation
succeeded, the remaining loop is aborted immediately with no retry (the trace
ends at the failing operation and the planned remainder is never invoked), the
intermediates already produced are tracked and deleted, the final concatenated
artifact is never produced, the failure path of the task also removes the
final-output path, and the reported error identifies the failing operation. -/
theorem segment_failure_aborts_and_cleans (failOp : Op → Bool)
    (removeFails : String → Bool) (taskId json_path pres_path video_path : String)
    (slides : List Segment) (pdfPages : Nat) (fs0 : List String)
    (pre : List Op) (op : Op) (rest : List Op)
    (hc : slides.length = pdfPages)
    (hplan : plannedOps video_path (dirname (taskOutputPath taskId)) slides =
      pre ++ op :: rest)
    (hpre : ∀ o ∈ pre, failOp o = false)
    (hop : failOp op = true)
    (hrm : ∀ p, removeFails p = false)
    (hout0 : taskOutputPath taskId ∉ fs0)
    (houtp : taskOutputPath taskId ∉
      plannedCleanupNames video_path (dirname (taskOutputPath taskId)) slides)
    (t : TaskResult)
    (ht : t = create_video_task failOp removeFails taskId json_path pres_path
      video_path slides pdfPages fs0) :
    t.success = false ∧
    t.error = some (PipeError.transcode op) ∧
    t.run.ops = pre ++ [op] ∧
    taskOutputPath taskId ∉ t.run.fsPre ∧
    taskOutputPath taskId ∉ t.fsFinal ∧
    (∀ p ∈ pre.map opOutput, p ∈ t.run.tracked ∧ p ∉ t.fsFinal) := by
  have hcore := processCore_fail failOp slides pdfPages video_path
    (taskOutputPath taskId) fs0 hc pre op rest hplan hpre hop
  have htask := create_video_task_fail failOp removeFails taskId json_path
    pres_path video_path slides pdfPages fs0 (PipeError.transcode op)
    (by rw [hcore])
  rw [htask] at ht
  have hsucc : t.success = false := by rw [ht]
  have herr2 : t.error = some (PipeError.transcode op) := by rw [ht]
  have hrunEq : t.run = process_video_with_presentation failOp removeFails
      slides pdfPages video_path (taskOutputPath taskId) fs0 := by rw [ht]
  have hfsEq : t.fsFinal = cleanup_files removeFails
      (cleanup_files removeFails
        (process_video_with_presentation failOp removeFails slides pdfPages
          video_path (taskOutputPath taskId) fs0).fsFinal
        [json_path, pres_path, video_path, taskOutputPath taskId])
      [json_path, pres_path, video_path] := by rw [ht]
  have hrun_tracked : (process_video_with_presentation failOp removeFails slides
      pdfPages video_path (taskOutputPath taskId) fs0).tracked =
      trackedWithManifest
        (convert_pdf_to_images (dirname (taskOutputPath taskId)) slides.length ++
          pre.map opOutput)
        ((pre.map opOutput).reverse ++
          (convert_pdf_to_images (dirname (taskOutputPath taskId)) slides.length ++
            fs0)) := by
    show (processCore failOp slides pdfPages video_path (taskOutputPath taskId)
      fs0).tracked = _
    rw [hcore]
  have hrun_fsPre : (process_video_with_presentation failOp removeFails slides
      pdfPages video_path (taskOutputPath taskId) fs0).fsPre =
      (pre.map opOutput).reverse ++
        (convert_pdf_to_images (dirname (taskOutputPath taskId)) slides.length ++
          fs0) := by
    show (processCore failOp slides pdfPages video_path (taskOutputPath taskId)
      fs0).fsPre = _
    rw [hcore]
  have hrun_fsFinal : (process_video_with_presentation failOp removeFails slides
      pdfPages video_path (taskOutputPath taskId) fs0).fsFinal =
      cleanup_files removeFails
        (processCore failOp slides pdfPages video_path (taskOutputPath taskId)
          fs0).fsPre
        (processCore failOp slides pdfPages video_path (taskOutputPath taskId)
          fs0).tracked := rfl
  have hpre_sub : ∀ p ∈ pre.map opOutput,
      p ∈ plannedCleanupNames video_path (dirname (taskOutputPath taskId))
        slides := by
    intro p hp
    have : p ∈ (plannedOps video_path (dirname (taskOutputPath taskId))
        slides).map opOutput := by
      rw [hplan, List.map_append]
      exact List.mem_append_left _ hp
    simp [plannedCleanupNames, this]
  have houtPre : taskOutputPath taskId ∉
      (process_video_with_presentation failOp removeFails slides pdfPages
        video_path (taskOutputPath taskId) fs0).fsPre := by
    rw [hrun_fsPre]
    intro hmem
    rcases List.mem_append.mp hmem with h | h
    · rw [List.mem_reverse] at h
      exact houtp (hpre_sub _ h)
    · rcases List.mem_append.mp h with h' | h'
      · exact houtp (by simp [plannedCleanupNames, h'])
      · exact hout0 h'
  refine ⟨hsucc, herr2, ?_, ?_, ?_, ?_⟩
  · rw [hrunEq]
    show (processCore failOp slides pdfPages video_path (taskOutputPath taskId)
      fs0).ops = _
    rw [hcore]
  · rw [hrunEq]
    exact houtPre
  · rw [hfsEq]
    intro hmem
    have hinner := cleanup_files_subset removeFails
      [json_path, pres_path, video_path] _ _ hmem
    exact cleanup_files_not_mem removeFails
      [json_path, pres_path, video_path, taskOutputPath taskId] _
      (taskOutputPath taskId) (by simp) (hrm _) hinner
  · intro p hp
    have htrk : p ∈ (process_video_with_presentation failOp removeFails slides
        pdfPages video_path (taskOutputPath taskId) fs0).tracked := by
      rw [hrun_tracked, trackedWithManifest]
      exact List.mem_append_left _ (List.mem_append_right _ hp)
    refine ⟨by rw [hrunEq]; exact htrk, ?_⟩
    have hnot1 : p ∉ (process_video_with_presentation failOp removeFails slides
        pdfPages video_path (taskOutputPath taskId) fs0).fsFinal := by
      rw [hrun_fsFinal]
      exact cleanup_files_not_mem removeFails _ _ p htrk (hrm p)
    rw [hfsEq]
    intro hmem
    exact hnot1 (cleanup_files_subset removeFails _ _ _
      (cleanup_files_subset removeFails _ _ _ hmem))

def sampleFailingOp : Op :=
  Op.cutVideo sampleVid sampleSeg1.start sampleSeg1.«end»
    (speakerCutPath UPLOADS_DIR 1)

def sampleFailOracle : Op → Bool := fun o => decide (o = sampleFailingOp)

def samplePre : List Op := plannedSegOps sampleVid UPLOADS_DIR 0 sampleSeg0

def sampleRest : List Op :=
  [ Op.slideToVideo (slideImagePath UPLOADS_DIR 1)
      (sampleSeg1.«end» - sampleSeg1.start) (slideVidPath UPLOADS_DIR 1),
    Op.resizeVideo (speakerCutPath UPLOADS_DIR 1)
      (speakerResizedPath UPLOADS_DIR 1),
    Op.combineVideos (slideVidPath UPLOADS_DIR 1)
      (speakerResizedPath UPLOADS_DIR 1) (combinedPath UPLOADS_DIR 1) ]

def sampleFailTask : TaskResult :=
  create_video_task sampleFailOracle noRemoveFail "T" sampleJson samplePres
    sampleVid sampleSegs 2 []

theorem segment_failure_aborts_and_cleans_witness :
    sampleFailTask.success = false ∧
    sampleFailTask.error = some (PipeError.transcode sampleFailingOp) ∧
    sampleFailTask.run.ops = samplePre ++ [sampleFailingOp] ∧
    taskOutputPath "T" ∉ sampleFailTask.run.fsPre ∧
    taskOutputPath "T" ∉ sampleFailTask.fsFinal ∧
    (∀ p ∈ samplePre.map opOutput,
      p ∈ sampleFailTask.run.tracked ∧ p ∉ sampleFailTask.fsFinal) :=
  segment_failure_aborts_and_cleans sampleFailOracle noRemoveFail "T"
    sampleJson samplePres sampleVid sampleSegs 2 [] samplePre sampleFailingOp
    sampleRest (by decide) (by decide) (by decide) (by decide) (fun _ => rfl)
    (by decide) (by decide) sampleFailTask rfl

/-- C7: on a successful run the task reports success with the final artifact
path, the three source inputs (timeline, document, narration) are deleted, all
tracked intermediates are deleted, and the final output path is preserved —
it is not among the files removed on the success path. -/
theorem success_deletes_sources_preserves_output (failOp : Op → Bool)
    (removeFails : String → Bool) (taskId json_path pres_path video_path : String)
    (slides : List Segment) (pdfPages : Nat) (fs0 : List String)
    (hc : slides.length = pdfPages)
    (hall : ∀ o, failOp o = false)
    (hrm : ∀ p, removeFails p = false)
    (hnj : taskOutputPath taskId ≠ json_path)
    (hnp : taskOutputPath taskId ≠ pres_path)
    (hnv : taskOutputPath taskId ≠ video_path)
    (houtp : taskOutputPath taskId ∉
      plannedCleanupNames video_path (dirname (taskOutputPath taskId)) slides)
    (t : TaskResult)
    (ht : t = create_video_task failOp removeFails taskId json_path pres_path
      video_path slides pdfPages fs0) :
    t.success = true ∧
    t.result_path = some (taskOutputPath taskId) ∧
    taskOutputPath taskId ∈ t.fsFinal ∧
    json_path ∉ t.fsFinal ∧ pres_path ∉ t.fsFinal ∧ video_path ∉ t.fsFinal ∧
    (∀ p ∈ t.run.tracked, p ∉ t.fsFinal) := by
  have hcore := processCore_ok failOp slides pdfPages video_path
    (taskOutputPath taskId) fs0 hc (fun o _ => hall o) (hall _)
  have htask := create_video_task_ok failOp removeFails taskId json_path
    pres_path video_path slides pdfPages fs0 (by rw [hcore])
  rw [htask] at ht
  subst ht
  have hrun_tracked : (process_video_with_presentation failOp removeFails slides
      pdfPages video_path (taskOutputPath taskId) fs0).tracked =
      plannedCleanupNames video_path (dirname (taskOutputPath taskId)) slides := by
    show (processCore failOp slides pdfPages video_path (taskOutputPath taskId)
      fs0).tracked = _
    rw [hcore]
    rfl
  have hrun_fsPre : (process_video_with_presentation failOp removeFails slides
      pdfPages video_path (taskOutputPath taskId) fs0).fsPre =
      taskOutputPath taskId :: manifestPath ::
        (((plannedOps video_path (dirname (taskOutputPath taskId))
          slides).map opOutput).reverse ++
          (convert_pdf_to_images (dirname (taskOutputPath taskId))
            slides.length ++ fs0)) := by
    show (processCore failOp slides pdfPages video_path (taskOutputPath taskId)
      fs0).fsPre = _
    rw [hcore]
  have hrun_fsFinal : (process_video_with_presentation failOp removeFails slides
      pdfPages video_path (taskOutputPath taskId) fs0).fsFinal =
      cleanup_files removeFails
        (process_video_with_presentation failOp removeFails slides pdfPages
          video_path (taskOutputPath taskId) fs0).fsPre
        (process_video_with_presentation failOp removeFails slides pdfPages
          video_path (taskOutputPath taskId) fs0).tracked := rfl
  have houtRun : taskOutputPath taskId ∈
      (process_video_with_presentation failOp removeFails slides pdfPages
        video_path (taskOutputPath taskId) fs0).fsFinal := by
    rw [hrun_fsFinal]
    apply cleanup_files_mem_of_not_mem
    · rw [hrun_fsPre]
      exact List.mem_cons_self _ _
    · rw [hrun_tracked]
      exact houtp
  refine ⟨rfl, rfl, ?_, ?_, ?_, ?_, ?_⟩
  · exact cleanup_files_mem_of_not_mem removeFails _ _ _ houtRun
      (by simp [hnj, hnp, hnv])
  · exact cleanup_files_not_mem removeFails _ _ _ (by simp) (hrm _)
  · exact cleanup_files_not_mem removeFails _ _ _ (by simp) (hrm _)
  · exact cleanup_files_not_mem removeFails _ _ _ (by simp) (hrm _)
  · intro p hp
    have hnot1 : p ∉ (process_video_with_presentation failOp removeFails slides
        pdfPages video_path (taskOutputPath taskId) fs0).fsFinal := by
      rw [hrun_fsFinal]
      exact cleanup_files_not_mem removeFails _ _ p hp (hrm p)
    intro hmem
    exact hnot1 (cleanup_files_subset removeFails _ _ _ hmem)

def sampleOkTask : TaskResult :=
  create_video_task noFail noRemoveFail "T" sampleJson samplePres sampleVid
    sampleSegs 2 []

theorem success_deletes_sources_preserves_output_witness :
    sampleOkTask.success = true ∧
    sampleOkTask.result_path = some (taskOutputPath "T") ∧
    taskOutputPath "T" ∈ sampleOkTask.fsFinal ∧
    sampleJson ∉ sampleOkTask.fsFinal ∧ samplePres ∉ sampleOkTask.fsFinal ∧
    sampleVid ∉ sampleOkTask.fsFinal ∧
    (∀ p ∈ sampleOkTask.run.tracked, p ∉ sampleOkTask.fsFinal) :=
  success_deletes_sources_preserves_output noFail noRemoveFail "T" sampleJson
    samplePres sampleVid sampleSegs 2 [] (by decide) (fun _ => rfl)
    (fun _ => rfl) (by decide) (by decide) (by decide) (by decide)
    sampleOkTask rfl

/-- C10: the only pre-transcoding validation is the count equality — with the
external operations never failing, the run succeeds exactly when the segment
count equals the page count, whatever the segments contain; in particular a
segment with end ≤ start raises no validation error, and its data — start and
end for the trim, the possibly non-positive duration end - start for the
image-to-clip render — is passed unchanged to the planned operations. -/
theorem only_count_validated_duration_unchanged (removeFails : String → Bool)
    (slides : List Segment) (pdfPages : Nat) (video_path output_path : String)
    (fs0 : List String) :
    ((process_video_with_presentation noFail removeFails slides pdfPages
        video_path output_path fs0).error = none ↔
      slides.length = pdfPages) ∧
    (∀ (i : Nat) (s : Segment),
      plannedSegOps video_path (dirname output_path) i s =
        [ Op.cutVideo video_path s.start s.«end»
            (speakerCutPath (dirname output_path) i),
          Op.slideToVideo (slideImagePath (dirname output_path) i)
            (s.«end» - s.start) (slideVidPath (dirname output_path) i),
          Op.resizeVideo (speakerCutPath (dirname output_path) i)
            (speakerResizedPath (dirname output_path) i),
          Op.combineVideos (slideVidPath (dirname output_path) i)
            (speakerResizedPath (dirname output_path) i)
            (combinedPath (dirname output_path) i) ]) := by
  constructor
  · constructor
    · intro h
      by_contra hne
      have hm := processCore_mismatch noFail slides pdfPages video_path
        output_path fs0 hne
      have herr : (process_video_with_presentation noFail removeFails slides
          pdfPages video_path output_path fs0).error =
          some (PipeError.countMismatch slides.length pdfPages) := by
        simp [process_video_with_presentation, hm]
      rw [herr] at h
      simp at h
    · intro hc
      have hok := processCore_ok noFail slides pdfPages video_path output_path
        fs0 hc (fun o _ => rfl) rfl
      simp [process_video_with_presentation, hok]
  · intro i s
    rfl

end PresGen
